import Mathlib

/-!
Verification of the season standings aggregation in
`src/components/season.py` (`SeasonComponent.create_season_summary`).

The aggregation is embedded shallowly:
* an `Event` is one row of the fastf1 event schedule (the columns the code
  reads: `EventName`, `RoundNumber`, `EventDate`, `EventFormat`);
* a `DriverResult` is one row of a session result frame (the columns the
  code reads: `Abbreviation`, `Points`, `Position`);
* the fastf1 fetches (`get_session` + `load`) are a `Provider` of
  `Except`-valued result lists, since a fetch may fail and the Python code
  lets such exceptions propagate;
* event dates and the current date are abstract timestamps (`Nat`),
  compared with `<` exactly as `schedule['EventDate'] < pd.to_datetime('today')`;
* points are exact rationals (the floats involved are small multiples of
  one half, so rational arithmetic is faithful);
* `pandas.DataFrame.pivot` is modelled with its error semantics: on the
  empty record list the frame has no columns and column lookup raises
  `KeyError`; on a duplicate (index, columns) pair it raises `ValueError`.
-/

namespace F1Dash

/-- One row of the event schedule, with the fields the aggregation reads. -/
structure Event where
  EventName : String
  RoundNumber : Nat
  EventDate : Nat
  EventFormat : String
deriving DecidableEq, Repr

/-- One row of a session results frame, with the fields the aggregation reads. -/
structure DriverResult where
  Abbreviation : String
  Points : ℚ
  Position : ℚ
deriving DecidableEq, Repr

/-- The data source: `ff1.get_session(...).load(...)` for race and sprint
sessions, and `ff1.plotting.get_driver_name`.  A fetch either yields the
result rows or fails with a propagating exception message. -/
structure Provider where
  raceResults : Nat → String → Except String (List DriverResult)
  sprintResults : Nat → String → Except String (List DriverResult)
  driverName : String → String

/-- One dict appended to the `standings` list in the source loop. -/
structure StandingRecord where
  EventName : String
  RoundNumber : Nat
  Driver : String
  DriverFullName : String
  Points : ℚ
  Position : ℚ
deriving DecidableEq, Repr

/-- A cell of the position pivot: either a recorded finishing position or
the `"N/A"` sentinel produced by `.fillna("N/A")`. -/
inductive PosCell where
  | pos (q : ℚ)
  | na
deriving DecidableEq, Repr

/-- `schedule[schedule['EventDate'] < pd.to_datetime('today')]`. -/
def completedEvents (schedule : List Event) (today : Nat) : List Event :=
  schedule.filter (fun e => decide (e.EventDate < today))

/-- The source's sprint test: `event["EventFormat"] == "sprint_qualifying"`. -/
def isSprintFormat (f : String) : Bool :=
  f == "sprint_qualifying"

/-- The formats that indicate a sprint sub-session, for comparison with
the test the code actually performs.  Modelled from the source's own
comment next to that test: since 2024 the sprint format is named
`"sprint_qualifying"`, in 2023 it is `"sprint_shootout"`, and in 2021 and
2022 it is `"sprint"`.  This predicate is not used by the aggregation
model; it renders the claim's phrase "the event's format indicates a
sprint sub-session". -/
def indicatesSprint (f : String) : Bool :=
  f == "sprint" || f == "sprint_shootout" || f == "sprint_qualifying"

/-- The sprint fetch of the loop body: `sprint` stays `None` unless the
event format equals `"sprint_qualifying"`, in which case the sprint
session is loaded. -/
def sprintSession (p : Provider) (season : Nat) (e : Event) :
    Except String (Option (List DriverResult)) :=
  if isSprintFormat e.EventFormat then
    match p.sprintResults season e.EventName with
    | Except.ok rs => Except.ok (some rs)
    | Except.error msg => Except.error msg
  else
    Except.ok none

/-- `sprint_points`: 0 when there is no sprint session; otherwise the
`Points` value of the first sprint row whose `Abbreviation` equals the
driver's (`sprint.results[sprint.results["Abbreviation"] == abbreviation]`
followed by `.values[0]`), and the 0 initialiser when that selection is
empty. -/
def sprintPointsFor (sprint : Option (List DriverResult)) (abbr : String) : ℚ :=
  match sprint with
  | none => 0
  | some rs =>
    match rs.filter (fun r => r.Abbreviation == abbr) with
    | [] => 0
    | r :: _ => r.Points

/-- The dict built for one race-result row of one event. -/
def mkRecord (p : Provider) (e : Event) (sprint : Option (List DriverResult))
    (r : DriverResult) : StandingRecord :=
  { EventName := e.EventName
    RoundNumber := e.RoundNumber
    Driver := r.Abbreviation
    DriverFullName := p.driverName r.Abbreviation
    Points := r.Points + sprintPointsFor sprint r.Abbreviation
    Position := r.Position }

/-- The records contributed by one event of the loop: the race fetch, then
the sprint fetch when applicable, then one record per race-result row.
Either fetch failing aborts with its error. -/
def eventRecords (p : Provider) (season : Nat) (e : Event) :
    Except String (List StandingRecord) :=
  match p.raceResults season e.EventName with
  | Except.error msg => Except.error msg
  | Except.ok raceRs =>
    match sprintSession p season e with
    | Except.error msg => Except.error msg
    | Except.ok sprint => Except.ok (raceRs.map (mkRecord p e sprint))

/-- The whole `standings` accumulation loop over the filtered schedule: the
per-event records concatenated in schedule order, aborting at the first
failing fetch. -/
def allRecords (p : Provider) (season : Nat) : List Event → Except String (List StandingRecord)
  | [] => Except.ok []
  | e :: rest =>
    match eventRecords p season e with
    | Except.error msg => Except.error msg
    | Except.ok rs =>
      match allRecords p season rest with
      | Except.error msg => Except.error msg
      | Except.ok rest2 => Except.ok (rs ++ rest2)

/-- The record filling pivot cell (driver `d`, round `r`), when present. -/
def findRecord (records : List StandingRecord) (d : String) (r : Nat) :
    Option StandingRecord :=
  records.find? (fun rec => rec.Driver == d && rec.RoundNumber == r)

/-- A cell of `df.pivot(index="Driver", columns="RoundNumber", values="Points").fillna(0)`. -/
def pointsCell (records : List StandingRecord) (d : String) (r : Nat) : ℚ :=
  match findRecord records d r with
  | some rec => rec.Points
  | none => 0

/-- A cell of `df.pivot(index="Driver", columns="RoundNumber", values="Position").fillna("N/A")`. -/
def posCell (records : List StandingRecord) (d : String) (r : Nat) : PosCell :=
  match findRecord records d r with
  | some rec => PosCell.pos rec.Position
  | none => PosCell.na

/-- Whether some (Driver, RoundNumber) pair occurs twice in the records:
the condition under which `DataFrame.pivot` raises `ValueError`. -/
def dupPair : List StandingRecord → Bool
  | [] => false
  | r :: rest =>
    rest.any (fun s => s.Driver == r.Driver && s.RoundNumber == r.RoundNumber) || dupPair rest

/-- Insertion into a sorted list, with a boolean comparison. -/
def insertSorted {α : Type} (le : α → α → Bool) (a : α) : List α → List α
  | [] => [a]
  | x :: xs => if le a x then a :: x :: xs else x :: insertSorted le a xs

/-- Insertion sort, used to model the sorted index/columns that
`DataFrame.pivot` produces and the `sort_values` call. -/
def sortBy {α : Type} (le : α → α → Bool) : List α → List α
  | [] => []
  | a :: as => insertSorted le a (sortBy le as)

/-- The column axis of the pivot: the distinct `RoundNumber` values of the
records, in ascending order. -/
def recordRounds (records : List StandingRecord) : List Nat :=
  sortBy (fun a b => decide (a ≤ b)) (records.map (fun r => r.RoundNumber)).dedup

/-- The row index of the pivot: the distinct `Driver` values of the
records.  (`DataFrame.pivot` sorts this index alphabetically, but the
subsequent `sort_values` call is an unstable sort, so the relative order
of drivers with equal totals is unspecified in the source; the order of
the distinct drivers before the total-points sort is therefore
irrelevant to the output contract.) -/
def recordDrivers (records : List StandingRecord) : List String :=
  (records.map (fun r => r.Driver)).dedup

/-- `heatmap_data.sum(axis=1)` for one driver row: the sum of that row's
points cells over the pivot columns. -/
def totalFor (records : List StandingRecord) (rounds : List Nat) (d : String) : ℚ :=
  (rounds.map (fun r => pointsCell records d r)).sum

/-- `heatmap_data.sort_values(by="total_points", ascending=True)` applied
to the driver index.  (`sort_values` uses an unstable sort, so the order
of drivers with equal totals is unspecified in the source; a stable
insertion sort realises one of its possible outcomes.) -/
def sortByTotal (records : List StandingRecord) (rounds : List Nat)
    (ds : List String) : List String :=
  sortBy (fun a b => decide (totalFor records rounds a ≤ totalFor records rounds b)) ds

/-- The data the figure is built from: row order, column order, the two
pivots, the per-driver totals, and the shortened event names used as x
labels. -/
structure SeasonSummary where
  drivers : List String
  rounds : List Nat
  pointsMatrix : List (List ℚ)
  positionMatrix : List (List PosCell)
  totalPoints : List ℚ
  shortEventNames : List String
deriving DecidableEq, Repr

/-- `event_name.replace("Grand Prix", "").strip()`. -/
def shortName (s : String) : String :=
  (s.replace "Grand Prix" "").trim

/-- Builds the summary from the filtered schedule and the accumulated
records, once the pivot is known to succeed. -/
def buildSummary (completed : List Event) (records : List StandingRecord) :
    SeasonSummary :=
  let rounds := recordRounds records
  let drivers := sortByTotal records rounds (recordDrivers records)
  { drivers := drivers
    rounds := rounds
    pointsMatrix := drivers.map (fun d => rounds.map (fun r => pointsCell records d r))
    positionMatrix := drivers.map (fun d => rounds.map (fun r => posCell records d r))
    totalPoints := drivers.map (fun d => totalFor records rounds d)
    shortEventNames := completed.map (fun e => shortName e.EventName) }

/-- `SeasonComponent.create_season_summary`: filter the schedule to past
events, accumulate the per-event records, pivot.  With no records the
frame built by `pd.DataFrame([])` has no columns and the pivot's column
lookup raises `KeyError`; with a duplicated (Driver, RoundNumber) pair it
raises `ValueError`; otherwise the summary is produced. -/
def create_season_summary (p : Provider) (season : Nat) (schedule : List Event)
    (today : Nat) : Except String SeasonSummary :=
  let completed := completedEvents schedule today
  match allRecords p season completed with
  | Except.error msg => Except.error msg
  | Except.ok records =>
    if records.isEmpty then
      Except.error "KeyError: Driver"
    else if dupPair records then
      Except.error "ValueError: Index contains duplicate entries, cannot reshape"
    else
      Except.ok (buildSummary completed records)

/-! Concrete fixtures used to exercise the definitions. -/

/-- A completed conventional-format event. -/
def evA : Event :=
  { EventName := "Alpha Grand Prix", RoundNumber := 1, EventDate := 3,
    EventFormat := "conventional" }

/-- A completed sprint-format event. -/
def evB : Event :=
  { EventName := "Beta Grand Prix", RoundNumber := 2, EventDate := 5,
    EventFormat := "sprint_qualifying" }

/-- An event dated after the example current date. -/
def evFuture : Event :=
  { EventName := "Gamma Grand Prix", RoundNumber := 3, EventDate := 99,
    EventFormat := "conventional" }

/-- An example schedule: two past events and one future event. -/
def scheduleEx : List Event := [evA, evB, evFuture]

/-- Race results of the first example event. -/
def raceRsA : List DriverResult :=
  [{ Abbreviation := "VER", Points := 25, Position := 1 },
   { Abbreviation := "HAM", Points := 18, Position := 2 },
   { Abbreviation := "NOR", Points := 15, Position := 3 }]

/-- Race results of the second example event (NOR is absent). -/
def raceRsB : List DriverResult :=
  [{ Abbreviation := "HAM", Points := 25, Position := 1 },
   { Abbreviation := "VER", Points := 18, Position := 2 }]

/-- Sprint results of the second example event (only VER has a record). -/
def sprintRsB : List DriverResult :=
  [{ Abbreviation := "VER", Points := 8, Position := 1 }]

/-- A provider that has data for the two past example events. -/
def pGood : Provider :=
  { raceResults := fun _ name =>
      if name == "Alpha Grand Prix" then Except.ok raceRsA
      else if name == "Beta Grand Prix" then Except.ok raceRsB
      else Except.error "no such event"
    sprintResults := fun _ name =>
      if name == "Beta Grand Prix" then Except.ok sprintRsB
      else Except.error "no sprint session"
    driverName := fun a => a }

/-- The records accumulated from the first example event. -/
def recsGoodA : List StandingRecord :=
  [{ EventName := "Alpha Grand Prix", RoundNumber := 1, Driver := "VER",
     DriverFullName := "VER", Points := 25, Position := 1 },
   { EventName := "Alpha Grand Prix", RoundNumber := 1, Driver := "HAM",
     DriverFullName := "HAM", Points := 18, Position := 2 },
   { EventName := "Alpha Grand Prix", RoundNumber := 1, Driver := "NOR",
     DriverFullName := "NOR", Points := 15, Position := 3 }]

/-- The records accumulated from the second example event (VER gets 18
race points plus 8 sprint points; HAM has no sprint record). -/
def recsGoodB : List StandingRecord :=
  [{ EventName := "Beta Grand Prix", RoundNumber := 2, Driver := "HAM",
     DriverFullName := "HAM", Points := 25, Position := 1 },
   { EventName := "Beta Grand Prix", RoundNumber := 2, Driver := "VER",
     DriverFullName := "VER", Points := 26, Position := 2 }]

/-- All records accumulated over the example schedule. -/
def recsGood : List StandingRecord := recsGoodA ++ recsGoodB

/-- The NOR record of the first example event. -/
def recGoodNor : StandingRecord :=
  { EventName := "Alpha Grand Prix", RoundNumber := 1, Driver := "NOR",
    DriverFullName := "NOR", Points := 15, Position := 3 }

/-- The summary produced on the example data. -/
def sGood : SeasonSummary := buildSummary (completedEvents scheduleEx 10) recsGood

/-- A completed event carrying the 2023 sprint format name, which the
source's comment says must be looked for in that season. -/
def evShootout : Event :=
  { EventName := "Delta Grand Prix", RoundNumber := 4, EventDate := 7,
    EventFormat := "sprint_shootout" }

/-- The VER race-result row of the shootout event. -/
def resVerC : DriverResult :=
  { Abbreviation := "VER", Points := 25, Position := 1 }

/-- Race results of the shootout event. -/
def raceRsC : List DriverResult := [resVerC]

/-- Sprint results of the shootout event: VER scored 8 sprint points. -/
def sprintRsC : List DriverResult :=
  [{ Abbreviation := "VER", Points := 8, Position := 1 }]

/-- A provider that has both race and sprint data for the shootout
event. -/
def pShootout : Provider :=
  { raceResults := fun _ name =>
      if name == "Delta Grand Prix" then Except.ok raceRsC
      else Except.error "no such event"
    sprintResults := fun _ name =>
      if name == "Delta Grand Prix" then Except.ok sprintRsC
      else Except.error "no sprint session"
    driverName := fun a => a }

/-- A provider whose fetches always fail. -/
def pFail : Provider :=
  { raceResults := fun _ _ => Except.error "provider down"
    sprintResults := fun _ _ => Except.error "provider down"
    driverName := fun a => a }

/-- Race results with a duplicated driver abbreviation. -/
def dupRaceRs : List DriverResult :=
  [{ Abbreviation := "VER", Points := 25, Position := 1 },
   { Abbreviation := "VER", Points := 18, Position := 2 }]

/-- A provider returning the duplicated race results for every event. -/
def pDup : Provider :=
  { raceResults := fun _ _ => Except.ok dupRaceRs
    sprintResults := fun _ _ => Except.error "no sprint session"
    driverName := fun a => a }

/-- The records accumulated from `pDup` on the one-event schedule. -/
def recsDup : List StandingRecord :=
  [{ EventName := "Alpha Grand Prix", RoundNumber := 1, Driver := "VER",
     DriverFullName := "VER", Points := 25, Position := 1 },
   { EventName := "Alpha Grand Prix", RoundNumber := 1, Driver := "VER",
     DriverFullName := "VER", Points := 18, Position := 2 }]

/-! Generic facts about the boolean insertion sort. -/

theorem mem_insertSorted {α : Type} (le : α → α → Bool) (a b : α) :
    ∀ l : List α, b ∈ insertSorted le a l ↔ b = a ∨ b ∈ l := by
  intro l
  induction l with
  | nil => simp [insertSorted]
  | cons x xs ih =>
    by_cases h : le a x = true
    · simp [insertSorted, h]
    · simp only [insertSorted, if_neg h, List.mem_cons, ih]
      tauto

theorem insertSorted_perm {α : Type} (le : α → α → Bool) (a : α) :
    ∀ l : List α, (insertSorted le a l).Perm (a :: l) := by
  intro l
  induction l with
  | nil => exact List.Perm.refl _
  | cons x xs ih =>
    by_cases h : le a x = true
    · simp only [insertSorted, if_pos h]
      exact List.Perm.refl _
    · simp only [insertSorted, if_neg h]
      exact (ih.cons x).trans (List.Perm.swap a x xs)

theorem sortBy_perm {α : Type} (le : α → α → Bool) :
    ∀ l : List α, (sortBy le l).Perm l := by
  intro l
  induction l with
  | nil => exact List.Perm.refl _
  | cons a as ih =>
    simp only [sortBy]
    exact (insertSorted_perm le a (sortBy le as)).trans (ih.cons a)

theorem pairwise_insertSorted {α : Type} (le : α → α → Bool)
    (htot : ∀ a b, le a b = false → le b a = true)
    (htrans : ∀ a b c, le a b = true → le b c = true → le a c = true)
    (a : α) : ∀ l : List α, l.Pairwise (fun x y => le x y = true) →
      (insertSorted le a l).Pairwise (fun x y => le x y = true) := by
  intro l
  induction l with
  | nil => intro _; simp [insertSorted]
  | cons x xs ih =>
    intro hp
    rw [List.pairwise_cons] at hp
    obtain ⟨hx, hxs⟩ := hp
    by_cases h : le a x = true
    · simp only [insertSorted, if_pos h, List.pairwise_cons]
      refine ⟨?_, hx, hxs⟩
      intro b hb
      rcases List.mem_cons.mp hb with rfl | hb2
      · exact h
      · exact htrans a x b h (hx b hb2)
    · have hf : le a x = false := by
        cases hax : le a x
        · rfl
        · exact absurd hax h
      simp only [insertSorted, if_neg h, List.pairwise_cons]
      constructor
      · intro b hb
        rcases (mem_insertSorted le a b xs).mp hb with hba | hb2
        · rw [hba]
          exact htot a x hf
        · exact hx b hb2
      · exact ih hxs

theorem pairwise_sortBy {α : Type} (le : α → α → Bool)
    (htot : ∀ a b, le a b = false → le b a = true)
    (htrans : ∀ a b c, le a b = true → le b c = true → le a c = true) :
    ∀ l : List α, (sortBy le l).Pairwise (fun x y => le x y = true) := by
  intro l
  induction l with
  | nil => simp [sortBy]
  | cons a as ih =>
    simp only [sortBy]
    exact pairwise_insertSorted le htot htrans a _ ih

/-! Inversion lemmas for the fetch-and-accumulate pipeline. -/

theorem eventRecords_ok {p : Provider} {season : Nat} {e : Event}
    {rs : List StandingRecord} (h : eventRecords p season e = Except.ok rs) :
    ∃ raceRs sprint, p.raceResults season e.EventName = Except.ok raceRs ∧
      sprintSession p season e = Except.ok sprint ∧
      rs = raceRs.map (mkRecord p e sprint) := by
  unfold eventRecords at h
  cases hr : p.raceResults season e.EventName with
  | error msg => rw [hr] at h; simp at h
  | ok raceRs =>
    rw [hr] at h
    cases hs : sprintSession p season e with
    | error msg => rw [hs] at h; simp at h
    | ok sprint =>
      rw [hs] at h
      injection h with h2
      exact ⟨raceRs, sprint, rfl, rfl, h2.symm⟩

theorem allRecords_cons_ok {p : Provider} {season : Nat} {e : Event}
    {rest : List Event} {records : List StandingRecord}
    (h : allRecords p season (e :: rest) = Except.ok records) :
    ∃ rs rest2, eventRecords p season e = Except.ok rs ∧
      allRecords p season rest = Except.ok rest2 ∧ records = rs ++ rest2 := by
  unfold allRecords at h
  cases he : eventRecords p season e with
  | error msg => rw [he] at h; simp at h
  | ok rs =>
    rw [he] at h
    cases hrest : allRecords p season rest with
    | error msg => rw [hrest] at h; simp at h
    | ok rest2 =>
      rw [hrest] at h
      injection h with h2
      exact ⟨rs, rest2, rfl, rfl, h2.symm⟩

theorem allRecords_event_sublist {p : Provider} {season : Nat} :
    ∀ {events : List Event} {records : List StandingRecord},
      allRecords p season events = Except.ok records →
      ∀ e ∈ events, ∃ rs, eventRecords p season e = Except.ok rs ∧ rs.Sublist records := by
  intro events
  induction events with
  | nil => intro records _ e he; exact absurd he (List.not_mem_nil e)
  | cons e0 rest ih =>
    intro records h e he
    obtain ⟨rs, rest2, he0, hrest, rfl⟩ := allRecords_cons_ok h
    rcases List.mem_cons.mp he with rfl | hmem
    · exact ⟨rs, he0, List.sublist_append_left rs rest2⟩
    · obtain ⟨rs2, hev, hsub⟩ := ih hrest e hmem
      exact ⟨rs2, hev, hsub.trans (List.sublist_append_right rs rest2)⟩

theorem mem_allRecords {p : Provider} {season : Nat} :
    ∀ {events : List Event} {records : List StandingRecord},
      allRecords p season events = Except.ok records →
      ∀ rec : StandingRecord, rec ∈ records ↔
        ∃ e ∈ events, ∃ rs, eventRecords p season e = Except.ok rs ∧ rec ∈ rs := by
  intro events
  induction events with
  | nil =>
    intro records h rec
    unfold allRecords at h
    injection h with h2
    rw [← h2]
    simp
  | cons e0 rest ih =>
    intro records h rec
    obtain ⟨rs, rest2, he0, hrest, rfl⟩ := allRecords_cons_ok h
    simp only [List.mem_append, List.mem_cons]
    constructor
    · intro hm
      rcases hm with hm | hm
      · exact ⟨e0, Or.inl rfl, rs, he0, hm⟩
      · obtain ⟨e, hemem, rs2, hev, hm2⟩ := (ih hrest rec).mp hm
        exact ⟨e, Or.inr hemem, rs2, hev, hm2⟩
    · rintro ⟨e, he, rs2, hev, hm2⟩
      rcases he with rfl | he
      · left
        rw [he0] at hev
        injection hev with h3
        rw [← h3] at hm2
        exact hm2
      · right
        exact (ih hrest rec).mpr ⟨e, he, rs2, hev, hm2⟩

theorem mem_eventRecords {p : Provider} {season : Nat} {e : Event}
    {rs : List StandingRecord} (h : eventRecords p season e = Except.ok rs)
    {rec : StandingRecord} (hm : rec ∈ rs) :
    rec.RoundNumber = e.RoundNumber ∧
    ∃ raceRs sprint, p.raceResults season e.EventName = Except.ok raceRs ∧
      sprintSession p season e = Except.ok sprint ∧
      ∃ r ∈ raceRs, rec = mkRecord p e sprint r := by
  obtain ⟨raceRs, sprint, hr, hs, rfl⟩ := eventRecords_ok h
  obtain ⟨r, hrm, rfl⟩ := List.mem_map.mp hm
  exact ⟨rfl, raceRs, sprint, hr, hs, r, hrm, rfl⟩

/-! The pivot: duplicate detection, cell lookup, and the top-level branches. -/

theorem dupPair_eq_false_iff :
    ∀ l : List StandingRecord, dupPair l = false ↔
      (l.map (fun rec => (rec.Driver, rec.RoundNumber))).Nodup := by
  intro l
  induction l with
  | nil => simp [dupPair]
  | cons r rest ih =>
    simp only [dupPair, Bool.or_eq_false_iff, List.map_cons, List.nodup_cons, ih,
      List.any_eq_false, List.mem_map]
    constructor
    · rintro ⟨hany, hnd⟩
      refine ⟨?_, hnd⟩
      rintro ⟨s, hs, hkey⟩
      have hcon := hany s hs
      rw [Prod.mk.injEq] at hkey
      simp [hkey.1, hkey.2] at hcon
    · rintro ⟨hnmem, hnd⟩
      refine ⟨?_, hnd⟩
      intro s hs hcontra
      rw [Bool.and_eq_true, beq_iff_eq, beq_iff_eq] at hcontra
      exact hnmem ⟨s, hs, by rw [Prod.mk.injEq]; exact hcontra⟩

theorem findRecord_self :
    ∀ {l : List StandingRecord}, dupPair l = false →
      ∀ rec ∈ l, findRecord l rec.Driver rec.RoundNumber = some rec := by
  intro l
  induction l with
  | nil => intro _ rec h; exact absurd h (List.not_mem_nil rec)
  | cons r rest ih =>
    intro hdup rec hm
    have hsplit :
        rest.any (fun s => s.Driver == r.Driver && s.RoundNumber == r.RoundNumber) = false
          ∧ dupPair rest = false := by
      rw [← Bool.or_eq_false_iff]
      exact hdup
    rcases List.mem_cons.mp hm with rfl | hm2
    · unfold findRecord
      rw [List.find?_cons_of_pos _ (by simp)]
    · unfold findRecord
      rw [List.find?_cons_of_neg]
      · exact ih hsplit.2 rec hm2
      · have h1 := List.any_eq_false.mp hsplit.1 rec hm2
        intro hcontra
        rw [Bool.and_eq_true, beq_iff_eq, beq_iff_eq] at hcontra
        rw [Bool.and_eq_true, beq_iff_eq, beq_iff_eq] at h1
        exact h1 ⟨hcontra.1.symm, hcontra.2.symm⟩

theorem findRecord_eq_none {records : List StandingRecord} {d : String} {r : Nat}
    (h : ∀ rec ∈ records, rec.RoundNumber ≠ r) :
    findRecord records d r = none := by
  unfold findRecord
  rw [List.find?_eq_none]
  intro rec hm hcontra
  rw [Bool.and_eq_true, beq_iff_eq, beq_iff_eq] at hcontra
  exact h rec hm hcontra.2

theorem pointsCell_of_none {records : List StandingRecord} {d : String} {r : Nat}
    (h : findRecord records d r = none) : pointsCell records d r = 0 := by
  unfold pointsCell
  rw [h]

theorem posCell_of_none {records : List StandingRecord} {d : String} {r : Nat}
    (h : findRecord records d r = none) : posCell records d r = PosCell.na := by
  unfold posCell
  rw [h]

theorem create_eq_ok {p : Provider} {season : Nat} {schedule : List Event} {today : Nat}
    {records : List StandingRecord}
    (hrec : allRecords p season (completedEvents schedule today) = Except.ok records)
    (hne : records ≠ []) (hdup : dupPair records = false) :
    create_season_summary p season schedule today =
      Except.ok (buildSummary (completedEvents schedule today) records) := by
  have h1 : ¬(records.isEmpty = true) := by
    rw [List.isEmpty_iff]
    exact hne
  have h2 : ¬(dupPair records = true) := by
    rw [hdup]
    simp
  simp only [create_season_summary]
  rw [hrec]
  dsimp only
  rw [if_neg h1, if_neg h2]

theorem create_ok_elim {p : Provider} {season : Nat} {schedule : List Event}
    {today : Nat} {s : SeasonSummary}
    (h : create_season_summary p season schedule today = Except.ok s) :
    ∃ records, allRecords p season (completedEvents schedule today) = Except.ok records ∧
      records ≠ [] ∧ dupPair records = false ∧
      s = buildSummary (completedEvents schedule today) records := by
  simp only [create_season_summary] at h
  cases hr : allRecords p season (completedEvents schedule today) with
  | error msg => rw [hr] at h; simp at h
  | ok records =>
    rw [hr] at h
    dsimp only at h
    by_cases h1 : records.isEmpty = true
    · rw [if_pos h1] at h; simp at h
    · rw [if_neg h1] at h
      by_cases h2 : dupPair records = true
      · rw [if_pos h2] at h; simp at h
      · rw [if_neg h2] at h
        refine ⟨records, rfl, ?_, ?_, ?_⟩
        · intro hcon
          exact h1 (by rw [hcon]; rfl)
        · cases hd : dupPair records
          · rfl
          · exact absurd hd h2
        · injection h with h3
          exact h3.symm

/-! Projections of the built summary. -/

theorem buildSummary_drivers (completed : List Event) (records : List StandingRecord) :
    (buildSummary completed records).drivers =
      sortByTotal records (recordRounds records) (recordDrivers records) := rfl

theorem buildSummary_rounds (completed : List Event) (records : List StandingRecord) :
    (buildSummary completed records).rounds = recordRounds records := rfl

theorem buildSummary_totalPoints (completed : List Event) (records : List StandingRecord) :
    (buildSummary completed records).totalPoints =
      (sortByTotal records (recordRounds records) (recordDrivers records)).map
        (fun d => totalFor records (recordRounds records) d) := rfl

theorem buildSummary_pointsMatrix (completed : List Event) (records : List StandingRecord) :
    (buildSummary completed records).pointsMatrix =
      (buildSummary completed records).drivers.map (fun d =>
        (buildSummary completed records).rounds.map (fun r => pointsCell records d r)) := rfl

theorem buildSummary_positionMatrix (completed : List Event) (records : List StandingRecord) :
    (buildSummary completed records).positionMatrix =
      (buildSummary completed records).drivers.map (fun d =>
        (buildSummary completed records).rounds.map (fun r => posCell records d r)) := rfl

theorem buildSummary_shortEventNames (completed : List Event) (records : List StandingRecord) :
    (buildSummary completed records).shortEventNames =
      completed.map (fun e => shortName e.EventName) := rfl

/-! Row sums and the column axis. -/

theorem sum_map_eq_of_nodup_sub {L M : List Nat} {f : Nat → ℚ}
    (hL : L.Nodup) (hM : M.Nodup) (hsub : ∀ x ∈ L, x ∈ M)
    (hz : ∀ x ∈ M, x ∉ L → f x = 0) :
    (L.map f).sum = (M.map f).sum := by
  rw [← List.sum_toFinset f hL, ← List.sum_toFinset f hM]
  apply Finset.sum_subset
  · intro x hx
    rw [List.mem_toFinset] at hx ⊢
    exact hsub x hx
  · intro x hx hnx
    rw [List.mem_toFinset] at hx
    exact hz x hx (fun hc => hnx (List.mem_toFinset.mpr hc))

theorem totalFor_eq_sum_completed {p : Provider} {season : Nat} {events : List Event}
    {records : List StandingRecord}
    (hrec : allRecords p season events = Except.ok records)
    (hnd : (events.map (fun e => e.RoundNumber)).Nodup) (d : String) :
    totalFor records (recordRounds records) d =
      (events.map (fun e => pointsCell records d e.RoundNumber)).sum := by
  have hperm : (recordRounds records).Perm (records.map (fun r => r.RoundNumber)).dedup :=
    sortBy_perm _ _
  unfold totalFor
  rw [(hperm.map (fun r => pointsCell records d r)).sum_eq]
  have hmm : events.map (fun e => pointsCell records d e.RoundNumber) =
      (events.map (fun e => e.RoundNumber)).map (fun r => pointsCell records d r) := by
    rw [List.map_map]
    rfl
  rw [hmm]
  apply sum_map_eq_of_nodup_sub (List.nodup_dedup _) hnd
  · intro x hx
    rw [List.mem_dedup] at hx
    obtain ⟨rec, hrm, hround⟩ := List.mem_map.mp hx
    obtain ⟨e, hem, rs, hev, hin⟩ := (mem_allRecords hrec rec).mp hrm
    refine List.mem_map.mpr ⟨e, hem, ?_⟩
    rw [← hround]
    exact ((mem_eventRecords hev hin).1).symm
  · intro x hxM hxL
    apply pointsCell_of_none
    apply findRecord_eq_none
    intro rec hm hcon
    exact hxL (List.mem_dedup.mpr (List.mem_map.mpr ⟨rec, hm, hcon⟩))

theorem recordRounds_pairwise (records : List StandingRecord) :
    (recordRounds records).Pairwise (fun a b : Nat => a ≤ b) := by
  have hp := pairwise_sortBy (fun a b : Nat => decide (a ≤ b))
    (fun a b hf => by
      rw [decide_eq_false_iff_not] at hf
      exact decide_eq_true (Nat.le_of_not_le hf))
    (fun a b c h1 h2 =>
      decide_eq_true (Nat.le_trans (of_decide_eq_true h1) (of_decide_eq_true h2)))
    ((records.map (fun r => r.RoundNumber)).dedup)
  exact hp.imp (fun h => of_decide_eq_true h)

theorem recordRounds_eq {p : Provider} {season : Nat} {events : List Event}
    {records : List StandingRecord}
    (hrec : allRecords p season events = Except.ok records)
    (hsorted : (events.map (fun e => e.RoundNumber)).Pairwise (fun a b => a < b))
    (hne : ∀ e ∈ events, ∃ rs, eventRecords p season e = Except.ok rs ∧ rs ≠ []) :
    recordRounds records = events.map (fun e => e.RoundNumber) := by
  have hMnd : (events.map (fun e => e.RoundNumber)).Nodup :=
    hsorted.imp (fun h => ne_of_lt h)
  have hMsorted : (events.map (fun e => e.RoundNumber)).Pairwise (fun a b : Nat => a ≤ b) :=
    hsorted.imp (fun h => le_of_lt h)
  have hLnd : (recordRounds records).Nodup :=
    ((sortBy_perm _ _).nodup_iff).mpr (List.nodup_dedup _)
  have hmemiff : ∀ x, x ∈ recordRounds records ↔ x ∈ events.map (fun e => e.RoundNumber) := by
    intro x
    simp only [recordRounds]
    rw [(sortBy_perm _ _).mem_iff, List.mem_dedup]
    constructor
    · intro hx
      obtain ⟨rec, hrm, hround⟩ := List.mem_map.mp hx
      obtain ⟨e, hem, rs, hev, hin⟩ := (mem_allRecords hrec rec).mp hrm
      refine List.mem_map.mpr ⟨e, hem, ?_⟩
      rw [← hround]
      exact ((mem_eventRecords hev hin).1).symm
    · intro hx
      obtain ⟨e, hem, hround⟩ := List.mem_map.mp hx
      obtain ⟨rs, hev, hrsne⟩ := hne e hem
      obtain ⟨rec, hrm⟩ := List.exists_mem_of_ne_nil rs hrsne
      have hrecmem : rec ∈ records := (mem_allRecords hrec rec).mpr ⟨e, hem, rs, hev, hrm⟩
      refine List.mem_map.mpr ⟨rec, hrecmem, ?_⟩
      rw [← hround]
      exact (mem_eventRecords hev hrm).1
  exact List.eq_of_perm_of_sorted ((List.perm_ext_iff_of_nodup hLnd hMnd).mpr hmemiff)
    (recordRounds_pairwise records) hMsorted

/-! Evaluation of the fixtures. -/

theorem evalEventA : eventRecords pGood 2024 evA = Except.ok recsGoodA := by
  simp [eventRecords, pGood, evA, sprintSession, isSprintFormat, mkRecord, sprintPointsFor,
    raceRsA, recsGoodA]

theorem evalEventB : eventRecords pGood 2024 evB = Except.ok recsGoodB := by
  simp [eventRecords, pGood, evB, sprintSession, isSprintFormat, mkRecord, sprintPointsFor,
    raceRsB, sprintRsB, recsGoodB]
  norm_num

theorem evalRecsGood :
    allRecords pGood 2024 (completedEvents scheduleEx 10) = Except.ok recsGood := by
  simp [allRecords, eventRecords, completedEvents, scheduleEx, evA, evB, evFuture, pGood,
    sprintSession, isSprintFormat, mkRecord, sprintPointsFor, raceRsA, raceRsB, sprintRsB,
    recsGood, recsGoodA, recsGoodB]
  norm_num

theorem evalRecsDup :
    allRecords pDup 2024 (completedEvents [evA] 10) = Except.ok recsDup := by
  simp [allRecords, eventRecords, completedEvents, evA, pDup, sprintSession, isSprintFormat,
    mkRecord, sprintPointsFor, dupRaceRs, recsDup]

theorem evalCreateGood :
    create_season_summary pGood 2024 scheduleEx 10 = Except.ok sGood :=
  create_eq_ok evalRecsGood (by decide) (by decide)

theorem evalDriversGood : sGood.drivers = ["NOR", "HAM", "VER"] := by
  have t1 : totalFor recsGood [1, 2] "NOR" = 15 := by
    simp +decide only [totalFor, pointsCell, findRecord, recsGood, recsGoodA, recsGoodB,
      List.cons_append, List.nil_append,
      List.find?_cons_of_pos, List.find?_cons_of_neg, List.find?_nil, List.map_cons,
      List.map_nil, List.sum_cons, List.sum_nil]
    norm_num
  have t2 : totalFor recsGood [1, 2] "HAM" = 43 := by
    simp +decide only [totalFor, pointsCell, findRecord, recsGood, recsGoodA, recsGoodB,
      List.cons_append, List.nil_append,
      List.find?_cons_of_pos, List.find?_cons_of_neg, List.find?_nil, List.map_cons,
      List.map_nil, List.sum_cons, List.sum_nil]
    norm_num
  have t3 : totalFor recsGood [1, 2] "VER" = 51 := by
    simp +decide only [totalFor, pointsCell, findRecord, recsGood, recsGoodA, recsGoodB,
      List.cons_append, List.nil_append,
      List.find?_cons_of_pos, List.find?_cons_of_neg, List.find?_nil, List.map_cons,
      List.map_nil, List.sum_cons, List.sum_nil]
    norm_num
  have hr2 : recordRounds recsGood = [1, 2] := by decide
  have hd2 : recordDrivers recsGood = ["NOR", "HAM", "VER"] := by decide
  rw [sGood, buildSummary_drivers, hr2, hd2]
  simp only [sortByTotal, sortBy, insertSorted, t1, t2, t3]
  norm_num

/-! The claims. -/

/-- Claim C1: for every driver row of the produced summary, the totalPoints
value equals the exact sum of that driver's per-round points (the points
cell of the pivot, which by construction is race points plus sprint
points where applicable and 0 for a round with no record) over exactly
the completed events, i.e. the schedule entries dated before the current
date. -/
theorem c1_total_points (p : Provider) (season : Nat) (schedule : List Event)
    (today : Nat) (records : List StandingRecord) (s : SeasonSummary)
    (hok : create_season_summary p season schedule today = Except.ok s)
    (hrec : allRecords p season (completedEvents schedule today) = Except.ok records)
    (hnd : ((completedEvents schedule today).map (fun e => e.RoundNumber)).Nodup) :
    s.totalPoints = s.drivers.map (fun d =>
      ((completedEvents schedule today).map
        (fun e => pointsCell records d e.RoundNumber)).sum) := by
  obtain ⟨records2, hrec2, hne2, hdup2, rfl⟩ := create_ok_elim hok
  rw [hrec] at hrec2
  injection hrec2 with h3
  subst h3
  rw [buildSummary_totalPoints, buildSummary_drivers]
  exact List.map_congr_left (fun d _ => totalFor_eq_sum_completed hrec hnd d)

/-- Witness for C1 on the concrete fixture: two completed events, with VER
collecting sprint points and NOR missing the second round. -/
theorem c1_witness :
    sGood.totalPoints = sGood.drivers.map (fun d =>
      ((completedEvents scheduleEx 10).map
        (fun e => pointsCell recsGood d e.RoundNumber)).sum) :=
  c1_total_points pGood 2024 scheduleEx 10 recsGood sGood evalCreateGood evalRecsGood
    (by decide)

/-- Claim C2: the driver rows of the produced summary are ordered
ascending by totalPoints: the totalPoints column is pairwise
non-decreasing from the first row to the last, so in particular every
consecutive pair of rows satisfies earlier ≤ later. -/
theorem c2_rows_sorted (p : Provider) (season : Nat) (schedule : List Event)
    (today : Nat) (s : SeasonSummary)
    (hok : create_season_summary p season schedule today = Except.ok s) :
    s.totalPoints.Pairwise (fun a b => a ≤ b) := by
  obtain ⟨records, hrec, hne, hdup, rfl⟩ := create_ok_elim hok
  rw [buildSummary_totalPoints, List.pairwise_map]
  simp only [sortByTotal]
  have hp := pairwise_sortBy
    (fun a b => decide (totalFor records (recordRounds records) a ≤
      totalFor records (recordRounds records) b))
    (fun a b hf => by
      rw [decide_eq_false_iff_not] at hf
      exact decide_eq_true (le_of_not_le hf))
    (fun a b c h1 h2 =>
      decide_eq_true (le_trans (of_decide_eq_true h1) (of_decide_eq_true h2)))
    (recordDrivers records)
  exact hp.imp (fun h => of_decide_eq_true h)

/-- Witness for C2 on the concrete fixture. -/
theorem c2_witness : sGood.totalPoints.Pairwise (fun a b => a ≤ b) :=
  c2_rows_sorted pGood 2024 scheduleEx 10 sGood evalCreateGood

/-- Claim C3 as stated is false on the code: the 2023 format name
"sprint_shootout" indicates a sprint sub-session (the source's own
comment beside the test says so, and the year selector offers every
season), yet the code's test matches only "sprint_qualifying", so for
such an event no sprint session is fetched and no sprint points are
added.  Concretely: the shootout event's format indicates a sprint, VER
has a sprint record worth 8 points, but the record produced for VER
carries the race points alone, not race plus sprint. -/
theorem c3_counterexample :
    indicatesSprint evShootout.EventFormat = true ∧
    isSprintFormat evShootout.EventFormat = false ∧
    sprintSession pShootout 2023 evShootout = Except.ok none ∧
    sprintPointsFor (some sprintRsC) "VER" = 8 ∧
    eventRecords pShootout 2023 evShootout =
      Except.ok (raceRsC.map (mkRecord pShootout evShootout none)) ∧
    (mkRecord pShootout evShootout none resVerC).Points = resVerC.Points ∧
    (mkRecord pShootout evShootout none resVerC).Points ≠
      resVerC.Points + sprintPointsFor (some sprintRsC) resVerC.Abbreviation := by
  refine ⟨rfl, rfl, rfl, rfl, rfl, ?_, ?_⟩
  · show (25 : ℚ) + sprintPointsFor none "VER" = 25
    have h0 : sprintPointsFor none "VER" = (0 : ℚ) := rfl
    rw [h0, add_zero]
  · show (25 : ℚ) + sprintPointsFor none "VER" ≠
      (25 : ℚ) + sprintPointsFor (some sprintRsC) "VER"
    have h0 : sprintPointsFor none "VER" = (0 : ℚ) := rfl
    have h8 : sprintPointsFor (some sprintRsC) "VER" = 8 := rfl
    rw [h0, h8]
    norm_num

/-- Claim C3 amended: sprint points are added if and only if the event
format is exactly "sprint_qualifying", the test the code performs; events
whose format is one of the historical sprint names "sprint" (2021 and
2022) or "sprint_shootout" (2023) fetch no sprint session and contribute
race points only, even though those formats indicate a sprint
sub-session.  For a non-sprint-test event the sprint session stays
`none` and each record's points are exactly the race points; for a
"sprint_qualifying" event the sprint results are fetched and each record
adds the exact-abbreviation sprint lookup to the race points; a driver
with no match in the sprint result set gets sprint points 0, not an
error. -/
theorem c3_sprint_points (p : Provider) (season : Nat) (e : Event)
    (raceRs : List DriverResult) (sp : Option (List DriverResult))
    (hr : p.raceResults season e.EventName = Except.ok raceRs)
    (hs : sprintSession p season e = Except.ok sp) :
    eventRecords p season e = Except.ok (raceRs.map (mkRecord p e sp)) ∧
    (∀ r ∈ raceRs, (mkRecord p e sp r).Points =
      r.Points + sprintPointsFor sp r.Abbreviation) ∧
    (isSprintFormat e.EventFormat = false → sp = none) ∧
    (sp = none → ∀ r ∈ raceRs, (mkRecord p e sp r).Points = r.Points) ∧
    (e.EventFormat = "sprint" ∨ e.EventFormat = "sprint_shootout" →
      sp = none ∧ ∀ r ∈ raceRs, (mkRecord p e sp r).Points = r.Points) ∧
    (isSprintFormat e.EventFormat = true →
      ∃ ss, p.sprintResults season e.EventName = Except.ok ss ∧ sp = some ss) ∧
    (∀ ss a, (∀ x ∈ ss, x.Abbreviation ≠ a) → sprintPointsFor (some ss) a = 0) := by
  have hnone : isSprintFormat e.EventFormat = false → sp = none := by
    intro hfmt
    unfold sprintSession at hs
    rw [if_neg (by rw [hfmt]; simp)] at hs
    injection hs with h2
    exact h2.symm
  have hraceonly : sp = none → ∀ r ∈ raceRs, (mkRecord p e sp r).Points = r.Points := by
    intro hsp r _
    rw [hsp]
    show r.Points + sprintPointsFor none r.Abbreviation = r.Points
    simp [sprintPointsFor]
  refine ⟨?_, ?_, hnone, hraceonly, ?_, ?_, ?_⟩
  · unfold eventRecords
    rw [hr, hs]
  · intro r _
    rfl
  · intro hfmt
    have hf : isSprintFormat e.EventFormat = false := by
      rcases hfmt with h | h
      · rw [h]; decide
      · rw [h]; decide
    exact ⟨hnone hf, hraceonly (hnone hf)⟩
  · intro hfmt
    unfold sprintSession at hs
    rw [if_pos hfmt] at hs
    cases hss : p.sprintResults season e.EventName with
    | error msg => rw [hss] at hs; simp at hs
    | ok ss =>
      rw [hss] at hs
      injection hs with h2
      exact ⟨ss, rfl, h2.symm⟩
  · intro ss a hno
    have hfil : ss.filter (fun r => r.Abbreviation == a) = [] := by
      rw [List.filter_eq_nil_iff]
      intro x hx
      simp only [beq_iff_eq]
      exact hno x hx
    simp only [sprintPointsFor, hfil]

/-- Witness for the amended C3 at the sprint-format fixture event: HAM
has no sprint record and adds 25 + 0, VER adds 18 + 8. -/
theorem c3_witness :
    eventRecords pGood 2024 evB = Except.ok (raceRsB.map (mkRecord pGood evB (some sprintRsB))) ∧
    sprintPointsFor (some sprintRsB) "HAM" = 0 := by
  have h := c3_sprint_points pGood 2024 evB raceRsB (some sprintRsB) rfl rfl
  exact ⟨h.1, h.2.2.2.2.2.2 sprintRsB "HAM" (by decide)⟩

/-- Claim C4 as stated is false on the code: with zero completed events
the accumulated record list is empty, the frame built by
`pd.DataFrame([])` has no columns, and the pivot's column lookup raises
`KeyError`; the aggregation errors instead of returning an empty matrix.
Concretely, on an empty schedule the run produces the error value. -/
theorem c4_counterexample :
    create_season_summary pGood 2024 ([] : List Event) 0 =
      Except.error "KeyError: Driver" := rfl

/-- Claim C4 amended: for every season whose schedule contains zero
completed events (no event dated before the current date) the
aggregation does not return a matrix at all, it fails with the pivot's
`KeyError`. -/
theorem c4_amended_empty (p : Provider) (season : Nat) (schedule : List Event)
    (today : Nat) (hempty : completedEvents schedule today = []) :
    create_season_summary p season schedule today =
      Except.error "KeyError: Driver" := by
  simp only [create_season_summary, hempty]
  rfl

/-- Witness for the amended C4: a schedule whose only event is in the
future has zero completed events and the aggregation errors. -/
theorem c4_witness :
    create_season_summary pFail 2024 [evFuture] 3 = Except.error "KeyError: Driver" :=
  c4_amended_empty pFail 2024 [evFuture] 3 (by decide)

/-- Claim C5: an event contributes to the aggregation iff its date is
strictly before the current date: the filtered schedule the loop iterates
over contains exactly the schedule entries with `EventDate < today` and
no others, a hard cutoff with no exception. -/
theorem c5_hard_cutoff (schedule : List Event) (today : Nat) (e : Event) :
    e ∈ completedEvents schedule today ↔ e ∈ schedule ∧ e.EventDate < today := by
  unfold completedEvents
  rw [List.mem_filter]
  simp

/-- Claim C6: for a driver row of the matrix and a matrix column
(completed round) for which that driver has no race-result record, the
points cell is 0 and the position cell is the `"N/A"` sentinel
(`PosCell.na`) — a constructor distinct from every finishing position
`PosCell.pos q`, so it is neither 0 nor any position value.  The two
pivots are exactly the cell maps over the row and column axes. -/
theorem c6_missing_driver (p : Provider) (season : Nat) (schedule : List Event)
    (today : Nat) (records : List StandingRecord) (s : SeasonSummary)
    (d : String) (r : Nat)
    (hok : create_season_summary p season schedule today = Except.ok s)
    (hrec : allRecords p season (completedEvents schedule today) = Except.ok records)
    (hd : d ∈ s.drivers) (hr : r ∈ s.rounds)
    (hmiss : findRecord records d r = none) :
    pointsCell records d r = 0 ∧
    posCell records d r = PosCell.na ∧
    s.pointsMatrix = s.drivers.map (fun d2 => s.rounds.map (fun r2 => pointsCell records d2 r2)) ∧
    s.positionMatrix = s.drivers.map (fun d2 => s.rounds.map (fun r2 => posCell records d2 r2)) := by
  obtain ⟨records2, hrec2, hne2, hdup2, rfl⟩ := create_ok_elim hok
  rw [hrec] at hrec2
  injection hrec2 with h3
  subst h3
  exact ⟨pointsCell_of_none hmiss, posCell_of_none hmiss,
    buildSummary_pointsMatrix _ _, buildSummary_positionMatrix _ _⟩

/-- Witness for C6: NOR appears only in round 1 of the fixture, so the
(NOR, 2) cell is 0 points and the not-applicable sentinel. -/
theorem c6_witness :
    pointsCell recsGood "NOR" 2 = 0 ∧
    posCell recsGood "NOR" 2 = PosCell.na ∧
    sGood.pointsMatrix = sGood.drivers.map (fun d2 => sGood.rounds.map (fun r2 => pointsCell recsGood d2 r2)) ∧
    sGood.positionMatrix = sGood.drivers.map (fun d2 => sGood.rounds.map (fun r2 => posCell recsGood d2 r2)) :=
  c6_missing_driver pGood 2024 scheduleEx 10 recsGood sGood "NOR" 2 evalCreateGood
    evalRecsGood (by rw [evalDriversGood]; decide) (by decide) (by decide)

/-- Claim C7: if fetching any completed event's results fails, the whole
aggregation fails closed: it returns an error and never a matrix, in
particular no partial matrix from the events before the failure. -/
theorem c7_fail_closed (p : Provider) (season : Nat) (schedule : List Event)
    (today : Nat) (e : Event) (msg : String)
    (he : e ∈ completedEvents schedule today)
    (hfail : eventRecords p season e = Except.error msg) :
    (∃ m, create_season_summary p season schedule today = Except.error m) ∧
    ∀ s, create_season_summary p season schedule today ≠ Except.ok s := by
  have hnotok : ∀ s, create_season_summary p season schedule today ≠ Except.ok s := by
    intro s hok
    obtain ⟨records, hrec, hne, hdup, hbuild⟩ := create_ok_elim hok
    obtain ⟨rs, hev, hsub⟩ := allRecords_event_sublist hrec e he
    rw [hfail] at hev
    simp at hev
  constructor
  · cases hc : create_season_summary p season schedule today with
    | error m => exact ⟨m, rfl⟩
    | ok s => exact absurd hc (hnotok s)
  · exact hnotok

/-- Witness for C7: the failing provider on a schedule with one completed
event produces no matrix. -/
theorem c7_witness : (create_season_summary pFail 2024 [evA] 10).isOk = false := by
  cases hc : create_season_summary pFail 2024 [evA] 10 with
  | error m => rfl
  | ok s =>
    exact absurd hc
      ((c7_fail_closed pFail 2024 [evA] 10 evA "provider down" (by decide) rfl).2 s)

/-- Claim C8: for every completed event the shortened display name is the
event name with the literal substring "Grand Prix" removed and the
surrounding whitespace trimmed (`shortName`), and the list of shortened
names, built in schedule order, is aligned positionally with the round
columns of the matrix: under the real-schedule conditions that round
numbers strictly increase along the schedule and every completed event
has a non-empty race result set, the column axis is exactly the
completed rounds in schedule order, so column j belongs to the event of
the j-th shortened name. -/
theorem c8_short_names (p : Provider) (season : Nat) (schedule : List Event)
    (today : Nat) (records : List StandingRecord) (s : SeasonSummary)
    (hok : create_season_summary p season schedule today = Except.ok s)
    (hrec : allRecords p season (completedEvents schedule today) = Except.ok records)
    (hsorted : ((completedEvents schedule today).map (fun e => e.RoundNumber)).Pairwise
      (fun a b => a < b))
    (hne : ∀ e ∈ completedEvents schedule today,
      ∃ rs, eventRecords p season e = Except.ok rs ∧ rs ≠ []) :
    s.shortEventNames =
      (completedEvents schedule today).map (fun e => shortName e.EventName) ∧
    s.rounds = (completedEvents schedule today).map (fun e => e.RoundNumber) := by
  obtain ⟨records2, hrec2, hne2, hdup2, rfl⟩ := create_ok_elim hok
  rw [hrec] at hrec2
  injection hrec2 with h3
  subst h3
  exact ⟨buildSummary_shortEventNames _ _,
    (buildSummary_rounds _ _).trans (recordRounds_eq hrec hsorted hne)⟩

/-- Witness for C8 on the concrete fixture. -/
theorem c8_witness :
    sGood.shortEventNames =
      (completedEvents scheduleEx 10).map (fun e => shortName e.EventName) ∧
    sGood.rounds = (completedEvents scheduleEx 10).map (fun e => e.RoundNumber) :=
  c8_short_names pGood 2024 scheduleEx 10 recsGood sGood evalCreateGood evalRecsGood
    (by decide)
    (by
      intro e he
      have hce : completedEvents scheduleEx 10 = [evA, evB] := by decide
      rw [hce] at he
      rcases List.mem_cons.mp he with rfl | he2
      · exact ⟨recsGoodA, evalEventA, by decide⟩
      · rcases List.mem_cons.mp he2 with rfl | he3
        · exact ⟨recsGoodB, evalEventB, by decide⟩
        · exact absurd he3 (List.not_mem_nil e))

/-- Claim C9: the driver rows of the matrix are exactly the abbreviations
appearing in at least one completed event's race result set: membership
in the row axis holds iff some completed event's race results contain
the abbreviation.  In particular a race finisher with zero points in
every round still gets a row, while a driver appearing only in a sprint
result set gets none, because records are created only by iterating race
results. -/
theorem c9_row_set (p : Provider) (season : Nat) (schedule : List Event)
    (today : Nat) (records : List StandingRecord) (s : SeasonSummary) (d : String)
    (hok : create_season_summary p season schedule today = Except.ok s)
    (hrec : allRecords p season (completedEvents schedule today) = Except.ok records) :
    d ∈ s.drivers ↔ ∃ e ∈ completedEvents schedule today, ∃ rs,
      p.raceResults season e.EventName = Except.ok rs ∧ ∃ r ∈ rs, r.Abbreviation = d := by
  obtain ⟨records2, hrec2, hne2, hdup2, rfl⟩ := create_ok_elim hok
  rw [hrec] at hrec2
  injection hrec2 with h3
  subst h3
  rw [buildSummary_drivers]
  simp only [sortByTotal]
  rw [(sortBy_perm _ _).mem_iff]
  simp only [recordDrivers]
  rw [List.mem_dedup]
  constructor
  · intro hx
    obtain ⟨rec, hrm, hdr⟩ := List.mem_map.mp hx
    obtain ⟨e, hem, rs, hev, hin⟩ := (mem_allRecords hrec rec).mp hrm
    obtain ⟨hround, raceRs, sprint, hr2, hs2, r, hrmem, hrec_eq⟩ := mem_eventRecords hev hin
    refine ⟨e, hem, raceRs, hr2, r, hrmem, ?_⟩
    rw [← hdr, hrec_eq]
    rfl
  · rintro ⟨e, hem, rs, hr2, r, hrm, hab⟩
    obtain ⟨rs2, hev, hsub⟩ := allRecords_event_sublist hrec e hem
    obtain ⟨raceRs, sprint, hr3, hs3, hmap⟩ := eventRecords_ok hev
    rw [hr2] at hr3
    injection hr3 with h4
    have hrecmem : mkRecord p e sprint r ∈ records := by
      apply (mem_allRecords hrec _).mpr
      refine ⟨e, hem, rs2, hev, ?_⟩
      rw [hmap]
      exact List.mem_map.mpr ⟨r, by rw [← h4]; exact hrm, rfl⟩
    refine List.mem_map.mpr ⟨mkRecord p e sprint r, hrecmem, ?_⟩
    rw [← hab]
    rfl

/-- Witness for C9: NOR appears in the race results of the first fixture
event, so NOR has a row. -/
theorem c9_witness : "NOR" ∈ sGood.drivers :=
  (c9_row_set pGood 2024 scheduleEx 10 recsGood sGood "NOR" evalCreateGood
    evalRecsGood).mpr
    ⟨evA, by decide, raceRsA, rfl,
      { Abbreviation := "NOR", Points := 15, Position := 3 }, by decide, rfl⟩

/-- Claim C10: the pivot is well-defined exactly under the precondition
that each (Driver, RoundNumber) pair occurs at most once in the
accumulated records: then every cell is uniquely determined (looking up a
record's own key returns exactly that record) and, as soon as any record
exists, the aggregation takes the success branch, so the pivot's error
branch is unreachable; while a duplicated driver abbreviation inside a
single completed event's race results makes the duplicate-key check fire
and the aggregation returns an error instead of a matrix. -/
theorem c10_pivot_precondition (p : Provider) (season : Nat) (schedule : List Event)
    (today : Nat) (records : List StandingRecord)
    (hrec : allRecords p season (completedEvents schedule today) = Except.ok records) :
    (dupPair records = false →
      (∀ rec ∈ records, findRecord records rec.Driver rec.RoundNumber = some rec) ∧
      (records ≠ [] → create_season_summary p season schedule today =
        Except.ok (buildSummary (completedEvents schedule today) records))) ∧
    ((∃ e ∈ completedEvents schedule today, ∃ rs,
        p.raceResults season e.EventName = Except.ok rs ∧
        ¬ (rs.map (fun r => r.Abbreviation)).Nodup) →
      ∀ s, create_season_summary p season schedule today ≠ Except.ok s) := by
  constructor
  · intro hdup
    exact ⟨findRecord_self hdup, fun hne => create_eq_ok hrec hne hdup⟩
  · rintro ⟨e, hem, rs, hr, hnodup⟩ s hok
    obtain ⟨records2, hrec2, hne2, hdup2, hbuild⟩ := create_ok_elim hok
    rw [hrec] at hrec2
    injection hrec2 with h3
    subst h3
    have hkeys : (records.map (fun rec => (rec.Driver, rec.RoundNumber))).Nodup :=
      (dupPair_eq_false_iff records).mp hdup2
    obtain ⟨rs2, hev, hsub⟩ := allRecords_event_sublist hrec e hem
    obtain ⟨raceRs, sprint, hr2, hs2, hmap⟩ := eventRecords_ok hev
    rw [hr] at hr2
    injection hr2 with h4
    have hsubkeys :=
      List.Nodup.sublist (hsub.map (fun rec => (rec.Driver, rec.RoundNumber))) hkeys
    rw [hmap, List.map_map] at hsubkeys
    have hpair : ((rs.map (fun r => r.Abbreviation)).map
        (fun a => (a, e.RoundNumber))).Nodup := by
      rw [List.map_map, h4]
      exact hsubkeys
    exact hnodup (List.Nodup.of_map _ hpair)

/-- Witness for C10: the duplicate-free fixture succeeds with uniquely
determined cells, and the provider duplicating VER in one race result set
yields no matrix. -/
theorem c10_witness :
    create_season_summary pGood 2024 scheduleEx 10 =
      Except.ok (buildSummary (completedEvents scheduleEx 10) recsGood) ∧
    findRecord recsGood recGoodNor.Driver recGoodNor.RoundNumber = some recGoodNor ∧
    (create_season_summary pDup 2024 [evA] 10).isOk = false := by
  refine ⟨?_, ?_, ?_⟩
  · exact ((c10_pivot_precondition pGood 2024 scheduleEx 10 recsGood evalRecsGood).1
      (by decide)).2 (by decide)
  · exact ((c10_pivot_precondition pGood 2024 scheduleEx 10 recsGood evalRecsGood).1
      (by decide)).1 recGoodNor (by decide)
  · cases hc : create_season_summary pDup 2024 [evA] 10 with
    | error m => rfl
    | ok s =>
      exact absurd hc ((c10_pivot_precondition pDup 2024 [evA] 10 recsDup evalRecsDup).2
        ⟨evA, by decide, dupRaceRs, rfl, by decide⟩ s)

end F1Dash
